import Mathlib

/-!
Verification of the camera-framing and render-orchestration pipeline of the
fbxtosprite repository (src/app.py and src/scripts/process_fbx.py).

The Python source is shallowly embedded: pure fragments become Lean
functions, the render-engine subprocess and the Blender scene are modelled
by explicit oracles and state passing, and Python floats are modelled by
rationals (for executable definitions) or reals (for the trigonometric
camera placement).  Machine floating point is not modelled bit for bit;
all numeric literals of the source (0.001, 2.2, 0.01, 0.1, 2.5, 1.0,
16383, ...) are taken at their exact rational value.
-/

/-- Three-component vector, the embedding of mathutils.Vector values. -/
structure Vec3 (α : Type) where
  x : α
  y : α
  z : α
deriving DecidableEq, Repr

/-! ## FrameSampler: the frame-selection step of render_animation
    (src/scripts/process_fbx.py lines 622-642). -/

/-- Python's builtin round (round half to even), applied to an exact
rational in place of the source's float. -/
def pyRound (q : ℚ) : ℤ :=
  let f := ⌊q⌋
  if q - f < 1/2 then f
  else if q - f > 1/2 then f + 1
  else if f % 2 = 0 then f else f + 1

/-- Embeds max(start_frame, min(end_frame, current_frame)) from
process_fbx.py line 638. -/
def clampFrame (start_frame end_frame f : ℤ) : ℤ :=
  max start_frame (min end_frame f)

/-- Embedding of the frames_to_render computation of render_animation
(process_fbx.py lines 622-642): single-frame short circuit, clamping of
num_frames_to_render to the source span, evenly spaced samples
round(start_frame + i * step) clamped into range, then
sorted(list(set(...))) modelled by sorting the deduplicated list. -/
def frames_to_render (start_frame end_frame num_frames_to_render : ℤ) : List ℤ :=
  let total_source_frames := end_frame - start_frame + 1
  if total_source_frames ≤ 1 ∨ num_frames_to_render ≤ 1 then
    [start_frame]
  else
    let n := min num_frames_to_render total_source_frames
    let step : ℚ := (total_source_frames - 1 : ℤ) / ((n : ℚ) - 1)
    let raw := (List.range n.toNat).map
      (fun i : ℕ => clampFrame start_frame end_frame (pyRound ((start_frame : ℚ) + (i : ℚ) * step)))
    raw.dedup.insertionSort (· ≤ ·)

lemma pyRound_intCast (m : ℤ) : pyRound (m : ℚ) = m := by
  simp only [pyRound, Int.floor_intCast, sub_self]
  norm_num

lemma clampFrame_lower (s e f : ℤ) : s ≤ clampFrame s e f := le_max_left _ _

lemma clampFrame_upper {s e : ℤ} (hse : s ≤ e) (f : ℤ) : clampFrame s e f ≤ e :=
  max_le hse (min_le_left _ _)

lemma clampFrame_start {s e : ℤ} (hse : s ≤ e) : clampFrame s e s = s := by
  simp [clampFrame, min_eq_right hse]

lemma clampFrame_end {s e : ℤ} (hse : s ≤ e) : clampFrame s e e = e := by
  simp [clampFrame, max_eq_right hse]

/-- Head of a strictly sorted list containing a lower bound of its members. -/
lemma head?_eq_of_sorted_of_min {l : List ℤ} {a : ℤ} (hs : l.Sorted (· < ·))
    (ha : a ∈ l) (hmin : ∀ x ∈ l, a ≤ x) : l.head? = some a := by
  cases l with
  | nil => cases ha
  | cons b t =>
    have hab : a ≤ b := hmin b (List.mem_cons_self _ _)
    rcases List.mem_cons.mp ha with rfl | hat
    · rfl
    · exact absurd (List.rel_of_sorted_cons hs a hat) (by omega)

/-- Last element of a strictly sorted list containing an upper bound of its
members. -/
lemma getLast?_eq_of_sorted_of_max {l : List ℤ} {a : ℤ} (hs : l.Sorted (· < ·))
    (ha : a ∈ l) (hmax : ∀ x ∈ l, x ≤ a) : l.getLast? = some a := by
  induction l with
  | nil => cases ha
  | cons b t ih =>
    cases t with
    | nil =>
      rcases List.mem_cons.mp ha with rfl | hat
      · rfl
      · cases hat
    | cons c u =>
      rw [List.getLast?_cons_cons]
      have hat : a ∈ c :: u := by
        rcases List.mem_cons.mp ha with rfl | hat
        · exfalso
          have hac : a < c := List.rel_of_sorted_cons hs c (List.mem_cons_self _ _)
          have hca : c ≤ a := hmax c (by simp)
          omega
        · exact hat
      exact ih hs.of_cons hat (fun x hx => hmax x (List.mem_cons_of_mem _ hx))

/-- Claim C1: for every frame range with start_frame ≤ end_frame, total span
at least 2 and requested frame_count at least 2, the frame-sampling step of
render_animation returns a strictly increasing sequence of integers within
[start_frame, end_frame], of length at most frame_count, starting exactly at
start_frame and ending exactly at end_frame. -/
theorem frames_to_render_spec (s e k : ℤ) (hse : s ≤ e) (hspan : 2 ≤ e - s + 1)
    (hk : 2 ≤ k) :
    (frames_to_render s e k).Sorted (· < ·) ∧
    (∀ f ∈ frames_to_render s e k, s ≤ f ∧ f ≤ e) ∧
    ((frames_to_render s e k).length : ℤ) ≤ k ∧
    (frames_to_render s e k).head? = some s ∧
    (frames_to_render s e k).getLast? = some e := by
  have hcond : ¬(e - s + 1 ≤ 1 ∨ k ≤ 1) := by omega
  have hn2 : 2 ≤ min k (e - s + 1) := le_min hk hspan
  set n : ℤ := min k (e - s + 1) with hn
  set step : ℚ := ((e - s + 1 - 1 : ℤ) : ℚ) / ((n : ℚ) - 1) with hstep
  set g : ℕ → ℤ := fun i => clampFrame s e (pyRound ((s : ℚ) + (i : ℚ) * step)) with hg
  set raw : List ℤ := (List.range n.toNat).map g with hraw
  have hL : frames_to_render s e k = raw.dedup.insertionSort (· ≤ ·) := by
    simp only [frames_to_render, hraw, hg, hstep, hn]
    rw [if_neg hcond]
  have hnn : (n.toNat : ℤ) = n := Int.toNat_of_nonneg (by omega)
  have hnt2 : 2 ≤ n.toNat := by omega
  -- every raw sample is inside the frame range
  have hrange : ∀ f ∈ raw, s ≤ f ∧ f ≤ e := by
    intro f hf
    rcases List.mem_map.mp hf with ⟨i, _, rfl⟩
    exact ⟨clampFrame_lower _ _ _, clampFrame_upper hse _⟩
  -- the sample at i = 0 is exactly start_frame
  have hg0 : g 0 = s := by
    simp only [hg, Nat.cast_zero, zero_mul, add_zero, pyRound_intCast]
    exact clampFrame_start hse
  have hs_mem : s ∈ raw := by
    rw [hraw]
    exact hg0 ▸ List.mem_map_of_mem g (List.mem_range.mpr (by omega))
  -- the sample at i = n.toNat - 1 is exactly end_frame
  have hne : ((n : ℚ) - 1) ≠ 0 := by
    have : (2 : ℚ) ≤ (n : ℚ) := by exact_mod_cast hn2
    intro hzero
    linarith
  have hcastQ : ((n.toNat : ℕ) : ℚ) = (n : ℚ) := by exact_mod_cast hnn
  have hcast : ((n.toNat - 1 : ℕ) : ℚ) = (n : ℚ) - 1 := by
    have h1 : 1 ≤ n.toNat := by omega
    push_cast [Nat.cast_sub h1]
    rw [hcastQ]
  have hglast : g (n.toNat - 1) = e := by
    have hq : (s : ℚ) + ((n.toNat - 1 : ℕ) : ℚ) * step = ((e : ℤ) : ℚ) := by
      rw [hcast, hstep]
      field_simp
    simp only [hg, hq, pyRound_intCast]
    exact clampFrame_end hse
  have he_mem : e ∈ raw := by
    rw [hraw]
    exact hglast ▸ List.mem_map_of_mem g (List.mem_range.mpr (by omega))
  -- facts about the final sorted deduplicated list
  have hperm : List.Perm (raw.dedup.insertionSort (· ≤ ·)) raw.dedup :=
    List.perm_insertionSort _ _
  have hnodup : (raw.dedup.insertionSort (· ≤ ·)).Nodup :=
    hperm.symm.nodup (List.nodup_dedup raw)
  have hsortedLe : (raw.dedup.insertionSort (· ≤ ·)).Sorted (· ≤ ·) :=
    List.sorted_insertionSort _ _
  have hsorted : (raw.dedup.insertionSort (· ≤ ·)).Sorted (· < ·) :=
    hsortedLe.lt_of_le hnodup
  have hmem_iff : ∀ x : ℤ, x ∈ raw.dedup.insertionSort (· ≤ ·) ↔ x ∈ raw := by
    intro x
    rw [List.mem_insertionSort, List.mem_dedup]
  rw [hL]
  refine ⟨hsorted, ?_, ?_, ?_, ?_⟩
  · intro f hf
    exact hrange f ((hmem_iff f).mp hf)
  · have hlen : (raw.dedup.insertionSort (· ≤ ·)).length = raw.dedup.length :=
      List.length_insertionSort _ _
    have hdl : raw.dedup.length ≤ raw.length := (List.dedup_sublist raw).length_le
    have hrl : raw.length = n.toNat := by
      rw [hraw, List.length_map, List.length_range]
    have : (raw.dedup.insertionSort (· ≤ ·)).length ≤ n.toNat := by omega
    have hnk : n ≤ k := min_le_left _ _
    omega
  · exact head?_eq_of_sorted_of_min hsorted ((hmem_iff s).mpr hs_mem)
      (fun x hx => (hrange x ((hmem_iff x).mp hx)).1)
  · exact getLast?_eq_of_sorted_of_max hsorted ((hmem_iff e).mpr he_mem)
      (fun x hx => (hrange x ((hmem_iff x).mp hx)).2)

/-- Witness for frames_to_render_spec at the spec's own scenario
start=1, end=100, frame_count=16. -/
theorem frames_to_render_spec_witness :
    (1 : ℤ) ≤ 100 ∧ 2 ≤ (100 : ℤ) - 1 + 1 ∧ 2 ≤ (16 : ℤ) ∧
    ((frames_to_render 1 100 16).Sorted (· < ·) ∧
     (∀ f ∈ frames_to_render 1 100 16, 1 ≤ f ∧ f ≤ 100) ∧
     ((frames_to_render 1 100 16).length : ℤ) ≤ 16 ∧
     (frames_to_render 1 100 16).head? = some 1 ∧
     (frames_to_render 1 100 16).getLast? = some 100) :=
  ⟨by norm_num, by norm_num, by norm_num,
    frames_to_render_spec 1 100 16 (by norm_num) (by norm_num) (by norm_num)⟩

/-! ## CameraPlanner: setup_camera (process_fbx.py lines 184-309)

The camera planner is embedded polymorphically over a linear ordered field
so that the same definitions serve exact rational evaluation and the real
trigonometric placement.  The parameters c and s stand for
cos(math.radians(angle_degrees)) and sin(math.radians(angle_degrees)); the
rotation matrix mathutils.Matrix.Rotation(radians, 4, 'Z') acts on a vector
(x, y, z) as (c*x - s*y, s*x + c*y, z).  Only the branch where animation
bounds are provided (anim_min and anim_max non-None) is modelled; the
claims under verification all concern that branch. -/

/-- Camera pose as produced by setup_camera: location, look-at target and
orthographic scale. -/
structure CameraPose (α : Type) where
  position : Vec3 α
  look_at_target : Vec3 α
  ortho_scale : α
deriving DecidableEq, Repr

/-- Dimension vector anim_max - anim_min of a bounding volume
(process_fbx.py line 200). -/
def boundsDims {α : Type} [LinearOrderedField α] (anim_min anim_max : Vec3 α) : Vec3 α :=
  ⟨anim_max.x - anim_min.x, anim_max.y - anim_min.y, anim_max.z - anim_min.z⟩

/-- The unclamped orthographic scale of process_fbx.py lines 245-254:
base_scale = max_world_dim / 2, multiplied by 1/aspect_ratio when the
render aspect ratio is portrait, times the padding multiplier 2.2. -/
def calculatedScale {α : Type} [LinearOrderedField α]
    (cam_world_dims : Vec3 α) (resolution_x resolution_y : α) : α :=
  let aspect_ratio := resolution_x / resolution_y
  let max_world_dim := max cam_world_dims.x (max cam_world_dims.y cam_world_dims.z)
  let base_scale := max_world_dim / 2
  let base_scale := if aspect_ratio < 1 then base_scale * (1 / aspect_ratio) else base_scale
  base_scale * (22 / 10)

/-- Orthographic scale determination of process_fbx.py lines 240-273.
The vector-length test dims.length > 0.001 is expressed on squares; a zero
resolution_y (ZeroDivisionError) or a zero resolution_x reached through the
portrait branch (1.0/aspect_ratio) lands in the exception handlers, which
keep the default scale 5.0; a computed scale below 0.01 is clamped to 0.1. -/
def orthoScale {α : Type} [LinearOrderedField α]
    (cam_world_dims : Vec3 α) (resolution_x resolution_y : α) : α :=
  if cam_world_dims.x ^ 2 + cam_world_dims.y ^ 2 + cam_world_dims.z ^ 2 > (1 / 1000) ^ 2 then
    if resolution_y = 0 then 5
    else if resolution_x / resolution_y < 1 ∧ resolution_x = 0 then 5
    else if calculatedScale cam_world_dims resolution_x resolution_y < 1 / 100 then 1 / 10
    else calculatedScale cam_world_dims resolution_x resolution_y
  else 5

/-- Camera distance of process_fbx.py lines 276-279:
max(min_camera_distance 1.0, ortho_scale * camera_distance_multiplier 2.5). -/
def effective_camera_distance {α : Type} [LinearOrderedField α]
    (calculated_ortho_scale : α) : α :=
  max 1 (calculated_ortho_scale * (5 / 2))

/-- Application of Matrix.Rotation(radians, 4, 'Z') to a vector, with
c = cos(radians) and s = sin(radians). -/
def rotZ_apply {α : Type} [LinearOrderedField α] (c s : α) (v : Vec3 α) : Vec3 α :=
  ⟨c * v.x - s * v.y, s * v.x + c * v.y, v.z⟩

/-- Camera location of process_fbx.py lines 281-287: the initial offset
(0, -effective_camera_distance, 0) rotated about Z and added to the world
center. -/
def camera_location {α : Type} [LinearOrderedField α]
    (cam_world_center : Vec3 α) (c s : α) (calculated_ortho_scale : α) : Vec3 α :=
  let initial_offset : Vec3 α := ⟨0, -(effective_camera_distance calculated_ortho_scale), 0⟩
  let rotated_offset := rotZ_apply c s initial_offset
  ⟨cam_world_center.x + rotated_offset.x, cam_world_center.y + rotated_offset.y,
    cam_world_center.z + rotated_offset.z⟩

/-- Embedding of setup_camera (animation-bounds branch): center and
dimensions from the bounds, orthographic scale, rotated placement, and the
look-at target at the same center. -/
def setup_camera {α : Type} [LinearOrderedField α]
    (anim_min anim_max : Vec3 α) (c s : α) (resolution_x resolution_y : α) : CameraPose α :=
  let cam_world_center : Vec3 α :=
    ⟨(anim_min.x + anim_max.x) / 2, (anim_min.y + anim_max.y) / 2, (anim_min.z + anim_max.z) / 2⟩
  let cam_world_dims := boundsDims anim_min anim_max
  let scale := orthoScale cam_world_dims resolution_x resolution_y
  { position := camera_location cam_world_center c s scale
    look_at_target := cam_world_center
    ortho_scale := scale }

/-- Strict containment of the volume [imin, imax] inside [omin, omax]. -/
def strictlyContains {α : Type} [LinearOrderedField α]
    (omin omax imin imax : Vec3 α) : Prop :=
  omin.x < imin.x ∧ omin.y < imin.y ∧ omin.z < imin.z ∧
  imax.x < omax.x ∧ imax.y < omax.y ∧ imax.z < omax.z

/-- The dims pass the degeneracy test of process_fbx.py line 243
(dims.length > 0.001, expressed on squares). -/
def passesLengthCheck {α : Type} [LinearOrderedField α] (dims : Vec3 α) : Prop :=
  dims.x ^ 2 + dims.y ^ 2 + dims.z ^ 2 > (1 / 1000) ^ 2

/-- Counterexample to claim C2 as stated: the volume [0, 0.008]^3 is
strictly contained in [-0.001, 0.03]^3, both pass the degeneracy length
check, yet at aspect ratio 1 the contained volume's computed scale
(0.0088) falls below the 0.01 clamp threshold and is raised to 0.1, while
the containing volume's scale stays at its computed 0.0341 < 0.1, so the
containing volume yields the strictly smaller orthographic_scale. -/
theorem setup_camera_scale_not_monotone :
    strictlyContains (⟨-1/1000, -1/1000, -1/1000⟩ : Vec3 ℚ) ⟨3/100, 3/100, 3/100⟩
      ⟨0, 0, 0⟩ ⟨1/125, 1/125, 1/125⟩ ∧
    passesLengthCheck (boundsDims (⟨0, 0, 0⟩ : Vec3 ℚ) ⟨1/125, 1/125, 1/125⟩) ∧
    passesLengthCheck
      (boundsDims (⟨-1/1000, -1/1000, -1/1000⟩ : Vec3 ℚ) ⟨3/100, 3/100, 3/100⟩) ∧
    (setup_camera (⟨-1/1000, -1/1000, -1/1000⟩ : Vec3 ℚ) ⟨3/100, 3/100, 3/100⟩
        1 0 1024 1024).ortho_scale <
      (setup_camera (⟨0, 0, 0⟩ : Vec3 ℚ) ⟨1/125, 1/125, 1/125⟩ 1 0 1024 1024).ortho_scale := by
  refine ⟨?_, ?_, ?_, ?_⟩
  · norm_num [strictlyContains]
  · norm_num [passesLengthCheck, boundsDims]
  · norm_num [passesLengthCheck, boundsDims]
  · norm_num [setup_camera, orthoScale, calculatedScale, boundsDims]

/-- Claim C2, amended: for two non-degenerate bounding volumes where one
strictly contains the other, with positive render resolutions and the same
aspect ratio, the containing volume's orthographic_scale is at least the
contained volume's, provided the contained volume's computed (unclamped)
scale does not fall below the 0.01 clamp threshold; when it does, the
clamp to 0.1 can invert the order. -/
theorem setup_camera_scale_monotone (imin imax omin omax : Vec3 ℚ)
    (c s resx resy : ℚ) (hrx : 0 < resx) (hry : 0 < resy)
    (hcont : strictlyContains omin omax imin imax)
    (hnd_i : passesLengthCheck (boundsDims imin imax))
    (hnd_o : passesLengthCheck (boundsDims omin omax))
    (hclamp : 1/100 ≤ calculatedScale (boundsDims imin imax) resx resy) :
    (setup_camera imin imax c s resx resy).ortho_scale ≤
      (setup_camera omin omax c s resx resy).ortho_scale := by
  obtain ⟨h1, h2, h3, h4, h5, h6⟩ := hcont
  -- the maximal world dimension is monotone under containment
  have hmax : max (boundsDims imin imax).x
        (max (boundsDims imin imax).y (boundsDims imin imax).z) ≤
      max (boundsDims omin omax).x
        (max (boundsDims omin omax).y (boundsDims omin omax).z) := by
    apply max_le_max
    · simp only [boundsDims]; linarith
    · apply max_le_max
      · simp only [boundsDims]; linarith
      · simp only [boundsDims]; linarith
  -- the unclamped computed scale is monotone in the maximal dimension
  have hcalc : calculatedScale (boundsDims imin imax) resx resy ≤
      calculatedScale (boundsDims omin omax) resx resy := by
    simp only [calculatedScale]
    by_cases hasp : resx / resy < 1
    · simp only [if_pos hasp]
      have hfac : (0:ℚ) ≤ 1 / (resx / resy) :=
        one_div_nonneg.mpr (div_pos hrx hry).le
      have hb : max (boundsDims imin imax).x
            (max (boundsDims imin imax).y (boundsDims imin imax).z) / 2 ≤
          max (boundsDims omin omax).x
            (max (boundsDims omin omax).y (boundsDims omin omax).z) / 2 := by
        linarith
      exact mul_le_mul_of_nonneg_right
        (mul_le_mul_of_nonneg_right hb hfac) (by norm_num)
    · simp only [if_neg hasp]
      have hb : max (boundsDims imin imax).x
            (max (boundsDims imin imax).y (boundsDims imin imax).z) / 2 ≤
          max (boundsDims omin omax).x
            (max (boundsDims omin omax).y (boundsDims omin omax).z) / 2 := by
        linarith
      exact mul_le_mul_of_nonneg_right hb (by norm_num)
  have hclamp_o : 1/100 ≤ calculatedScale (boundsDims omin omax) resx resy :=
    le_trans hclamp hcalc
  have hry0 : ¬(resy = 0) := ne_of_gt hry
  have hrx0 : ¬(resx / resy < 1 ∧ resx = 0) := fun h => (ne_of_gt hrx) h.2
  simp only [passesLengthCheck] at hnd_i hnd_o
  simp only [setup_camera, orthoScale]
  rw [if_pos hnd_i, if_pos hnd_o, if_neg hry0, if_neg hry0, if_neg hrx0, if_neg hrx0,
    if_neg (not_lt.mpr hclamp), if_neg (not_lt.mpr hclamp_o)]
  exact hcalc

/-- Witness for setup_camera_scale_monotone: the unit cube inside the cube
[-1, 2]^3 at aspect ratio 1. -/
theorem setup_camera_scale_monotone_witness :
    ((0:ℚ) < 1024) ∧
    strictlyContains (⟨-1, -1, -1⟩ : Vec3 ℚ) ⟨2, 2, 2⟩ ⟨0, 0, 0⟩ ⟨1, 1, 1⟩ ∧
    passesLengthCheck (boundsDims (⟨0, 0, 0⟩ : Vec3 ℚ) ⟨1, 1, 1⟩) ∧
    passesLengthCheck (boundsDims (⟨-1, -1, -1⟩ : Vec3 ℚ) ⟨2, 2, 2⟩) ∧
    1/100 ≤ calculatedScale (boundsDims (⟨0, 0, 0⟩ : Vec3 ℚ) ⟨1, 1, 1⟩) 1024 1024 ∧
    (setup_camera (⟨0, 0, 0⟩ : Vec3 ℚ) ⟨1, 1, 1⟩ 1 0 1024 1024).ortho_scale ≤
      (setup_camera (⟨-1, -1, -1⟩ : Vec3 ℚ) ⟨2, 2, 2⟩ 1 0 1024 1024).ortho_scale :=
  ⟨by norm_num,
   by norm_num [strictlyContains],
   by norm_num [passesLengthCheck, boundsDims],
   by norm_num [passesLengthCheck, boundsDims],
   by norm_num [calculatedScale, boundsDims],
   setup_camera_scale_monotone ⟨0, 0, 0⟩ ⟨1, 1, 1⟩ ⟨-1, -1, -1⟩ ⟨2, 2, 2⟩ 1 0 1024 1024
     (by norm_num) (by norm_num) (by norm_num [strictlyContains])
     (by norm_num [passesLengthCheck, boundsDims])
     (by norm_num [passesLengthCheck, boundsDims])
     (by norm_num [calculatedScale, boundsDims])⟩

/-- Claim C3: for bounds min = (-1,-1,-1), max = (1,1,1), viewing angle 90
degrees and render aspect ratio 1 (resolution 1024 x 1024), setup_camera
computes orthographic_scale = 2.2 (padding 2.2 times half of the max extent
2), camera distance max(1, 2.2 * 2.5) = 5.5, and places the camera at
center + Rotate_Z(90 deg) . (0, -5.5, 0) = (5.5, 0, 0), looking at the
bounds center (0, 0, 0). -/
theorem setup_camera_scenario_90deg :
    effective_camera_distance (2.2 : ℝ) = max 1 (2.2 * 2.5) ∧
    effective_camera_distance (2.2 : ℝ) = 5.5 ∧
    setup_camera (⟨-1, -1, -1⟩ : Vec3 ℝ) ⟨1, 1, 1⟩
        (Real.cos (90 * Real.pi / 180)) (Real.sin (90 * Real.pi / 180)) 1024 1024 =
      { position := ⟨5.5, 0, 0⟩, look_at_target := ⟨0, 0, 0⟩, ortho_scale := 2.2 } := by
  have hang : (90 : ℝ) * Real.pi / 180 = Real.pi / 2 := by ring
  have hcos : Real.cos (90 * Real.pi / 180) = 0 := by rw [hang, Real.cos_pi_div_two]
  have hsin : Real.sin (90 * Real.pi / 180) = 1 := by rw [hang, Real.sin_pi_div_two]
  have hdist : effective_camera_distance (2.2 : ℝ) = 5.5 := by
    rw [effective_camera_distance,
      max_eq_right (by norm_num : (1:ℝ) ≤ 2.2 * (5 / 2))]
    norm_num
  refine ⟨?_, hdist, ?_⟩
  · rw [hdist, max_eq_right (by norm_num : (1:ℝ) ≤ 2.2 * 2.5)]
    norm_num
  · have hscale :
        orthoScale (boundsDims (⟨-1, -1, -1⟩ : Vec3 ℝ) ⟨1, 1, 1⟩) 1024 1024 = 2.2 := by
      rw [orthoScale, if_pos (by norm_num [boundsDims]),
        if_neg (by norm_num : ¬((1024:ℝ) = 0)),
        if_neg (by norm_num : ¬((1024:ℝ)/1024 < 1 ∧ (1024:ℝ) = 0))]
      rw [calculatedScale]
      norm_num [boundsDims]
    simp only [setup_camera, camera_location, rotZ_apply]
    rw [hscale, hcos, hsin]
    simp only [CameraPose.mk.injEq, Vec3.mk.injEq, effective_camera_distance]
    rw [max_eq_right (by norm_num : (1:ℝ) ≤ 2.2 * (5 / 2))]
    norm_num

/-- Claim C8: setup_camera at angle 0 and at angle 360 yields the same
camera position, for every bounding volume and render resolution - the
Rotate_Z placement is periodic with period 360 degrees. -/
theorem setup_camera_angle_periodic (amin amax : Vec3 ℝ) (resx resy : ℝ) :
    (setup_camera amin amax (Real.cos (0 * Real.pi / 180))
        (Real.sin (0 * Real.pi / 180)) resx resy).position =
      (setup_camera amin amax (Real.cos (360 * Real.pi / 180))
        (Real.sin (360 * Real.pi / 180)) resx resy).position := by
  have h0 : (0 : ℝ) * Real.pi / 180 = 0 := by ring
  have h360 : (360 : ℝ) * Real.pi / 180 = 2 * Real.pi := by ring
  rw [h0, h360, Real.cos_zero, Real.sin_zero, Real.cos_two_pi, Real.sin_two_pi]

/-! ## BoundsCalculator: get_animation_world_bounds
    (process_fbx.py lines 40-89)

The Blender scene is modelled by its current-frame cursor (an integer);
scene.frame_set is explicit state passing.  Per frame, an oracle gives the
object's world-space bound_box corners: none models a frame whose corner
computation is skipped or fails inside the per-frame try (hasattr failure,
empty corner list, or an inner exception, all of which continue the loop),
some cs gives the evaluated corner list.  A second oracle marks frames at
which an exception escapes to the outer handler (the only loop code outside
the per-frame try is scene.frame_set itself); the handler restores the
original frame and returns (None, None).

The accumulator pair (overall_min = +inf, overall_max = -inf, has_bounds =
False) of the source is modelled as an Option accumulator: none while
has_bounds is False, some (overall_min, overall_max) afterwards; the first
corner replaces the infinities exactly as min/max against +-inf does. -/

/-- Componentwise min/max accumulation of one frame's world corners
(process_fbx.py lines 67-71). -/
def accumCorner (a : Option (Vec3 ℚ × Vec3 ℚ)) (c : Vec3 ℚ) :
    Option (Vec3 ℚ × Vec3 ℚ) :=
  match a with
  | none => some (c, c)
  | some (mn, mx) =>
      some (⟨min mn.x c.x, min mn.y c.y, min mn.z c.z⟩,
            ⟨max mx.x c.x, max mx.y c.y, max mx.z c.z⟩)

def updateBounds (acc : Option (Vec3 ℚ × Vec3 ℚ)) (corners : List (Vec3 ℚ)) :
    Option (Vec3 ℚ × Vec3 ℚ) :=
  corners.foldl accumCorner acc

/-- The frame loop of get_animation_world_bounds: returns whether an
exception escaped, the accumulated bounds, and the scene cursor after the
loop body last ran. -/
def boundsLoop (corners : ℤ → Option (List (Vec3 ℚ))) (frameSetFails : ℤ → Bool) :
    List ℤ → Option (Vec3 ℚ × Vec3 ℚ) → ℤ → Bool × Option (Vec3 ℚ × Vec3 ℚ) × ℤ
  | [], acc, cur => (false, acc, cur)
  | f :: rest, acc, cur =>
    if frameSetFails f then (true, acc, cur)
    else
      let acc' := match corners f with
        | none => acc
        | some cs => updateBounds acc cs
      boundsLoop corners frameSetFails rest acc' f

/-- Embedding of get_animation_world_bounds: iterate every integer frame in
[start_frame, end_frame], accumulate world-space bounds, restore the
original frame on both the normal path and the exception path, and return
(None, None) when no frame yielded bounds or when the outer handler ran.
The returned pair is (bounds result, final scene frame). -/
def get_animation_world_bounds (corners : ℤ → Option (List (Vec3 ℚ)))
    (frameSetFails : ℤ → Bool) (start_frame end_frame : ℤ) (original_frame : ℤ) :
    Option (Vec3 ℚ × Vec3 ℚ) × ℤ :=
  let frames := (List.range (end_frame + 1 - start_frame).toNat).map
    (fun i : ℕ => start_frame + (i : ℤ))
  match boundsLoop corners frameSetFails frames none original_frame with
  | (true, _, _) => (none, original_frame)
  | (false, acc, _) => (acc, original_frame)

/-- Claim C7: on every return path of get_animation_world_bounds - success,
no frame yielding bounds, or an exception during the loop - the scene's
current frame after the call equals the frame before the call. -/
theorem get_animation_world_bounds_restores_frame
    (corners : ℤ → Option (List (Vec3 ℚ))) (frameSetFails : ℤ → Bool)
    (start_frame end_frame original_frame : ℤ) :
    (get_animation_world_bounds corners frameSetFails
      start_frame end_frame original_frame).2 = original_frame := by
  rcases hres : boundsLoop corners frameSetFails
      ((List.range (end_frame + 1 - start_frame).toNat).map
        (fun i : ℕ => start_frame + (i : ℤ)))
      none original_frame with ⟨raised, acc, cur⟩
  cases raised <;> simp [get_animation_world_bounds, hres]

/-- An optional bounds pair is componentwise ordered (min at most max on
each axis) whenever it is present. -/
def boundsOrdered (b : Option (Vec3 ℚ × Vec3 ℚ)) : Prop :=
  ∀ mn mx, b = some (mn, mx) → mn.x ≤ mx.x ∧ mn.y ≤ mx.y ∧ mn.z ≤ mx.z

lemma accumCorner_ordered (a : Option (Vec3 ℚ × Vec3 ℚ)) (c : Vec3 ℚ)
    (h : boundsOrdered a) : boundsOrdered (accumCorner a c) := by
  cases a with
  | none =>
    intro mn mx hmn
    simp only [accumCorner, Option.some.injEq, Prod.mk.injEq] at hmn
    obtain ⟨rfl, rfl⟩ := hmn
    exact ⟨le_refl _, le_refl _, le_refl _⟩
  | some p =>
    obtain ⟨mn0, mx0⟩ := p
    obtain ⟨h1, h2, h3⟩ := h mn0 mx0 rfl
    intro mn mx hmn
    simp only [accumCorner, Option.some.injEq, Prod.mk.injEq] at hmn
    obtain ⟨rfl, rfl⟩ := hmn
    exact ⟨(min_le_left _ _).trans (h1.trans (le_max_left _ _)),
           (min_le_left _ _).trans (h2.trans (le_max_left _ _)),
           (min_le_left _ _).trans (h3.trans (le_max_left _ _))⟩

lemma updateBounds_ordered (corners : List (Vec3 ℚ)) :
    ∀ acc : Option (Vec3 ℚ × Vec3 ℚ), boundsOrdered acc →
      boundsOrdered (updateBounds acc corners) := by
  induction corners with
  | nil => intro acc h; exact h
  | cons c cs ih =>
    intro acc h
    exact ih (accumCorner acc c) (accumCorner_ordered acc c h)

lemma boundsLoop_ordered (corners : ℤ → Option (List (Vec3 ℚ)))
    (frameSetFails : ℤ → Bool) :
    ∀ (fs : List ℤ) (acc : Option (Vec3 ℚ × Vec3 ℚ)) (cur : ℤ),
      boundsOrdered acc →
      boundsOrdered (boundsLoop corners frameSetFails fs acc cur).2.1 := by
  intro fs
  induction fs with
  | nil => intro acc cur h; exact h
  | cons f rest ih =>
    intro acc cur h
    rw [boundsLoop]
    by_cases hf : frameSetFails f
    · rw [if_pos hf]; exact h
    · rw [if_neg hf]
      cases hc : corners f with
      | none => exact ih acc f h
      | some cs => exact ih (updateBounds acc cs) f (updateBounds_ordered cs acc h)

lemma boundsLoop_none (corners : ℤ → Option (List (Vec3 ℚ)))
    (frameSetFails : ℤ → Bool)
    (hnone : ∀ f, corners f = none ∨ corners f = some []) :
    ∀ (fs : List ℤ) (cur : ℤ),
      (boundsLoop corners frameSetFails fs none cur).2.1 = none := by
  intro fs
  induction fs with
  | nil => intro cur; rfl
  | cons f rest ih =>
    intro cur
    rw [boundsLoop]
    by_cases hf : frameSetFails f
    · rw [if_pos hf]
    · rw [if_neg hf]
      rcases hnone f with hc | hc <;> rw [hc]
      · exact ih f
      · exact ih f

/-- Claim C9: whenever get_animation_world_bounds returns a present
(min, max) pair, min is componentwise at most max; when no frame in the
range produces valid corners (the oracle yields no corner list, or an
empty one, at every frame), it returns the explicit no-bounds value none,
never a zero box. -/
theorem get_animation_world_bounds_invariant (corners : ℤ → Option (List (Vec3 ℚ)))
    (frameSetFails : ℤ → Bool) (start_frame end_frame original_frame : ℤ) :
    (∀ mn mx : Vec3 ℚ,
      (get_animation_world_bounds corners frameSetFails
        start_frame end_frame original_frame).1 = some (mn, mx) →
      mn.x ≤ mx.x ∧ mn.y ≤ mx.y ∧ mn.z ≤ mx.z) ∧
    ((∀ f, corners f = none ∨ corners f = some []) →
      (get_animation_world_bounds corners frameSetFails
        start_frame end_frame original_frame).1 = none) := by
  constructor
  · intro mn mx hres
    have hord : boundsOrdered (boundsLoop corners frameSetFails
        ((List.range (end_frame + 1 - start_frame).toNat).map
          (fun i : ℕ => start_frame + (i : ℤ))) none original_frame).2.1 :=
      boundsLoop_ordered corners frameSetFails _ none original_frame
        (fun mn mx h => by cases h)
    rcases hloop : boundsLoop corners frameSetFails
        ((List.range (end_frame + 1 - start_frame).toNat).map
          (fun i : ℕ => start_frame + (i : ℤ))) none original_frame with ⟨raised, acc, cur⟩
    rw [hloop] at hord
    cases raised with
    | true =>
      rw [get_animation_world_bounds] at hres
      simp only [hloop] at hres
      cases hres
    | false =>
      rw [get_animation_world_bounds] at hres
      simp only [hloop] at hres
      exact hord mn mx hres
  · intro hnone
    have hln := boundsLoop_none corners frameSetFails hnone
      ((List.range (end_frame + 1 - start_frame).toNat).map
        (fun i : ℕ => start_frame + (i : ℤ))) original_frame
    rcases hloop : boundsLoop corners frameSetFails
        ((List.range (end_frame + 1 - start_frame).toNat).map
          (fun i : ℕ => start_frame + (i : ℤ))) none original_frame with ⟨raised, acc, cur⟩
    rw [hloop] at hln
    cases raised with
    | true =>
      rw [get_animation_world_bounds]
      simp only [hloop]
    | false =>
      rw [get_animation_world_bounds]
      simp only [hloop]
      exact hln

/-- Witness for get_animation_world_bounds_invariant: a single frame with
corners (0,0,0) and (1,2,3) gives an ordered pair, and the all-failing
oracle gives none. -/
theorem get_animation_world_bounds_invariant_witness :
    ((Vec3.mk (0:ℚ) 0 0).x ≤ (Vec3.mk (1:ℚ) 2 3).x ∧
     (Vec3.mk (0:ℚ) 0 0).y ≤ (Vec3.mk (1:ℚ) 2 3).y ∧
     (Vec3.mk (0:ℚ) 0 0).z ≤ (Vec3.mk (1:ℚ) 2 3).z) ∧
    (get_animation_world_bounds (fun _ => none) (fun _ => false) 1 1 7).1 = none :=
  ⟨(get_animation_world_bounds_invariant
      (fun f => if f = 1 then some [⟨0, 0, 0⟩, ⟨1, 2, 3⟩] else none)
      (fun _ => false) 1 1 7).1 ⟨0, 0, 0⟩ ⟨1, 2, 3⟩ (by decide),
   (get_animation_world_bounds_invariant (fun _ => none) (fun _ => false) 1 1 7).2
      (fun f => Or.inl rfl)⟩

/-! ## Web layer: upload_file (src/app.py lines 431-716)

Python strings are modelled as character lists (Str) so that every string
operation is an executable structural recursion.  Form fields follow
request.form semantics: a field that can be absent is an Option, and a
numeric field that is present but fails float()/int() conversion (the
ValueError caught at app.py line 497) is modelled as some none. -/

/-- Python strings, as character lists. -/
abbrev Str := List Char

/-- ASCII lowering of one character, the effect of str.lower per character. -/
def lowerChar (c : Char) : Char :=
  if 'A' ≤ c ∧ c ≤ 'Z' then Char.ofNat (c.toNat + 32) else c

/-- ASCII raising of one character, the effect of str.upper per character. -/
def upperChar (c : Char) : Char :=
  if 'a' ≤ c ∧ c ≤ 'z' then Char.ofNat (c.toNat - 32) else c

/-- The characters after the last dot: some suffix when a dot exists, none
otherwise.  This is filename.rsplit(chr(46), 1)[1] guarded by the
membership test of allowed_file (app.py lines 35-37). -/
def afterLastDot : Str → Option Str
  | [] => none
  | c :: rest =>
    match afterLastDot rest with
    | some s => some s
    | none => if c = '.' then some rest else none

/-- Embedding of allowed_file (app.py lines 35-37): the filename contains a
dot and the lowercased extension after the last dot is fbx. -/
def allowed_file (filename : Str) : Bool :=
  match afterLastDot filename with
  | none => false
  | some ext => decide (ext.map lowerChar = "fbx".data)

/-- The valid render styles of app.py line 478. -/
def valid_styles : List Str :=
  ["bright".data, "cel".data, "unlit".data, "original_unlit".data, "wireframe".data,
   "clay".data, "pixel_cel".data, "cel_outline".data, "cel_thicker_outline".data,
   "pixel_outline".data, "pixel_post_outline".data, "pixel_post_thin_outline".data]

/-- The pixelated styles of app.py line 481. -/
def pixel_styles : List Str :=
  ["pixel_cel".data, "pixel_outline".data, "pixel_post_outline".data,
   "pixel_post_thin_outline".data]

/-- A multipart upload request as upload_file reads it from request.form. -/
structure UploadForm where
  filename : Str
  auto_angles_mode : Str
  standard_angles : List (Option ℚ)
  custom_angle_enabled : Bool
  custom_angle_value : Option (Option ℚ)
  num_frames_field : Option (Option ℤ)
  render_style : Str
  pixel_resolution_field : Option (Option ℤ)
  output_format_field : Str
  output_type_field : Str

/-- The parameters with which upload_file proceeds to the engine loop. -/
structure RunParams where
  angles_to_process : List ℚ
  num_frames : ℤ
  render_style : Str
  pixel_resolution : Option ℤ
  output_format : Str
  output_file_extension : Str
  output_type : Str
deriving DecidableEq

/-- The rejection responses of upload_file issued before the engine loop. -/
inductive UploadError
  | invalidFile
  | noAngles
  | valueError
deriving DecidableEq

/-- The num_angles_map dictionary of app.py line 447. -/
def num_angles_map (m : Str) : Option ℕ :=
  if m = "16".data then some 16
  else if m = "32".data then some 32
  else if m = "64".data then some 64
  else none

/-- Sequencing of the float() conversions over the angles checkbox list
(app.py line 462): any conversion failure raises ValueError. -/
def seqOptions : List (Option ℚ) → Option (List ℚ)
  | [] => some []
  | none :: _ => none
  | some q :: rest => (seqOptions rest).map (fun l => q :: l)

/-- An int(request.form.get(name, dflt)) read: absent means the default,
present but malformed raises ValueError. -/
def parseIntField (field : Option (Option ℤ)) (dflt : ℤ) : Except UploadError ℤ :=
  match field with
  | none => Except.ok dflt
  | some none => Except.error UploadError.valueError
  | some (some v) => Except.ok v

/-- The angle/frame-count resolution of upload_file (app.py lines 441-474):
auto-angles mode generates evenly spread angles with num_frames overridden
to 1; manual mode parses checkbox angles, adds the clamped custom angle,
rejects an empty selection, and clamps num_frames into [1, 100]. -/
def parse_angles_frames (f : UploadForm) : Except UploadError (List ℚ × ℤ) :=
  if f.auto_angles_mode ≠ "off".data then
    let num_auto_angles := (num_angles_map f.auto_angles_mode).getD 16
    Except.ok ((List.range num_auto_angles).map
      (fun i : ℕ => (i : ℚ) * (360 / (num_auto_angles : ℚ))), (1 : ℤ))
  else
    match seqOptions f.standard_angles with
    | none => Except.error UploadError.valueError
    | some parsed =>
      match
        (if f.custom_angle_enabled then
          match f.custom_angle_value with
          | none => Except.ok parsed
          | some none => Except.error UploadError.valueError
          | some (some q) => Except.ok (parsed ++ [max 0 (min q 360)])
        else Except.ok parsed : Except UploadError (List ℚ)) with
      | Except.error err => Except.error err
      | Except.ok sel =>
        if sel = [] then Except.error UploadError.noAngles
        else
          match parseIntField f.num_frames_field 16 with
          | Except.error err => Except.error err
          | Except.ok nf =>
            Except.ok (sel.dedup.insertionSort (· ≤ ·), max 1 (min nf 100))

/-- The pixel_resolution handling of upload_file (app.py lines 480-484):
read and clamp into [16, 256] for pixelated styles, None otherwise. -/
def parse_pixel_resolution (f : UploadForm) (render_style : Str) :
    Except UploadError (Option ℤ) :=
  if pixel_styles.contains render_style then
    match parseIntField f.pixel_resolution_field 128 with
    | Except.error err => Except.error err
    | Except.ok pr => Except.ok (some (max 16 (min pr 256)))
  else Except.ok none

/-- Embedding of the pre-engine phase of upload_file (app.py lines
434-499): the file-type gate, the form parsing with its clamping, and the
style/format/type normalisation.  A returned error is one of the 400
responses issued before any Blender subprocess is started. -/
def upload_parse (f : UploadForm) : Except UploadError RunParams :=
  if f.filename = [] ∨ allowed_file f.filename = false then
    Except.error UploadError.invalidFile
  else
    match parse_angles_frames f with
    | Except.error err => Except.error err
    | Except.ok (angles_to_process, num_frames) =>
      let render_style :=
        if valid_styles.contains f.render_style then f.render_style else "bright".data
      match parse_pixel_resolution f render_style with
      | Except.error err => Except.error err
      | Except.ok pixel_resolution =>
        let fmt_up := f.output_format_field.map upperChar
        let output_format :=
          if fmt_up = "PNG".data ∨ fmt_up = "WEBP".data then fmt_up else "PNG".data
        let output_type :=
          if f.output_type_field = "zip".data ∨ f.output_type_field = "sheet".data then
            f.output_type_field
          else "zip".data
        Except.ok
          { angles_to_process := angles_to_process
            num_frames := num_frames
            render_style := render_style
            pixel_resolution := pixel_resolution
            output_format := output_format
            output_file_extension := output_format.map lowerChar
            output_type := output_type }

/-! ## RenderOrchestrator: the per-angle Blender loop
    (app.py lines 524-586). -/

/-- Outcome of one subprocess.run invocation of the Blender script. -/
inductive EngineOutcome
  | success
  | nonZeroExit
  | timeout
  | execNotFound
deriving DecidableEq

/-- The diagnostic entries appended to blender_errors.  Only the
FileNotFoundError message contains the text used by the post-loop fatality
test, so the substring check on the joined messages is the membership test
for blenderNotFound. -/
inductive BlenderError
  | angleFailed (angle : ℚ)
  | angleTimeout (angle : ℚ)
  | blenderNotFound
deriving DecidableEq

/-- The per-angle loop of upload_file (app.py lines 524-582): one
subprocess invocation per angle; a CalledProcessError or TimeoutExpired is
recorded and the loop continues, a FileNotFoundError is recorded and the
loop breaks.  Returns the angles for which an invocation was attempted and
the accumulated error list. -/
def processAngles (outcome : ℚ → EngineOutcome) : List ℚ → List ℚ × List BlenderError
  | [] => ([], [])
  | a :: rest =>
    match outcome a with
    | EngineOutcome.success =>
        let r := processAngles outcome rest
        (a :: r.1, r.2)
    | EngineOutcome.nonZeroExit =>
        let r := processAngles outcome rest
        (a :: r.1, BlenderError.angleFailed a :: r.2)
    | EngineOutcome.timeout =>
        let r := processAngles outcome rest
        (a :: r.1, BlenderError.angleTimeout a :: r.2)
    | EngineOutcome.execNotFound => ([a], [BlenderError.blenderNotFound])

/-- The post-loop gate of app.py lines 585-586: the request fails with a
500 response when the joined error text contains the missing-executable
marker. -/
def blenderNotFoundFatal (errs : List BlenderError) : Bool :=
  errs.contains BlenderError.blenderNotFound

/-- The Blender invocations performed for an upload request: none when the
request is rejected before the loop, otherwise those of the per-angle
loop. -/
def engine_invocations (f : UploadForm) (outcome : ℚ → EngineOutcome) : List ℚ :=
  match upload_parse f with
  | Except.error _ => []
  | Except.ok p => (processAngles outcome p.angles_to_process).1

lemma parse_angles_frames_bounds (f : UploadForm) (angles : List ℚ) (nf : ℤ)
    (h : parse_angles_frames f = Except.ok (angles, nf)) : 1 ≤ nf ∧ nf ≤ 100 := by
  unfold parse_angles_frames at h
  split at h
  · cases h
    omega
  · split at h
    · cases h
    · split at h
      · cases h
      · split at h
        · cases h
        · split at h
          · cases h
          · cases h
            omega

/-- A concrete upload request whose frame count (500), custom angle (777)
and pixel resolution (9999) are all out of range. -/
def outOfRangeForm : UploadForm :=
  { filename := "model.fbx".data
    auto_angles_mode := "off".data
    standard_angles := [some 0]
    custom_angle_enabled := true
    custom_angle_value := some (some 777)
    num_frames_field := some (some 500)
    render_style := "pixel_cel".data
    pixel_resolution_field := some (some 9999)
    output_format_field := "PNG".data
    output_type_field := "zip".data }

/-- Counterexample to claim C4 as stated: a request whose frame count
(500), custom angle (777) and pixel resolution (9999) are all out of
range is not rejected - the engine loop still runs, invoking the engine at
angles 0 and 360 (the custom angle was silently clamped). -/
theorem upload_out_of_range_not_rejected :
    (¬(1 ≤ (500 : ℤ) ∧ (500 : ℤ) ≤ 100)) ∧
    (¬((777 : ℚ) ≤ 360)) ∧
    (¬(16 ≤ (9999 : ℤ) ∧ (9999 : ℤ) ≤ 256)) ∧
    engine_invocations outOfRangeForm (fun _ => EngineOutcome.success) = [0, 360] := by
  refine ⟨by decide, by decide, by decide, by decide⟩

lemma parse_pixel_resolution_bounds (f : UploadForm) (rs : Str) (pr_opt : Option ℤ)
    (h : parse_pixel_resolution f rs = Except.ok pr_opt) :
    ∀ r : ℤ, pr_opt = some r → 16 ≤ r ∧ r ≤ 256 := by
  intro r hr
  unfold parse_pixel_resolution at h
  split at h
  · split at h
    · cases h
    · cases h
      rw [Option.some.injEq] at hr
      omega
  · cases h
    cases hr

/-- Claim C4, amended: a bad file type and malformed (unparseable) numeric
fields are rejected before any engine invocation, but out-of-range numeric
values are not rejected: any request that reaches the engine loop has an
allowed file type, a frame count clamped into [1, 100] and a pixel
resolution clamped into [16, 256]; the custom angle is clamped into
[0, 360] and standard-list angles are passed through unvalidated. -/
theorem upload_validation_clamps (f : UploadForm) (p : RunParams)
    (h : upload_parse f = Except.ok p) :
    allowed_file f.filename = true ∧
    (1 ≤ p.num_frames ∧ p.num_frames ≤ 100) ∧
    (∀ r : ℤ, p.pixel_resolution = some r → 16 ≤ r ∧ r ≤ 256) := by
  unfold upload_parse at h
  by_cases hgate : (f.filename = [] ∨ allowed_file f.filename = false)
  · rw [if_pos hgate] at h
    cases h
  · rw [if_neg hgate] at h
    push_neg at hgate
    have hall : allowed_file f.filename = true := Bool.not_eq_false _ |>.mp hgate.2
    refine ⟨hall, ?_⟩
    cases hanf : parse_angles_frames f with
    | error err =>
      rw [hanf] at h
      cases h
    | ok anf =>
      obtain ⟨angles, nf⟩ := anf
      rw [hanf] at h
      have hnf := parse_angles_frames_bounds f angles nf hanf
      dsimp only at h
      cases hpix : parse_pixel_resolution f
          (if valid_styles.contains f.render_style then f.render_style
           else "bright".data) with
      | error err =>
        rw [hpix] at h
        cases h
      | ok pr_opt =>
        rw [hpix] at h
        have hprb := parse_pixel_resolution_bounds f _ pr_opt hpix
        cases h
        exact ⟨hnf, hprb⟩

/-- The parameters upload_parse produces for outOfRangeForm: everything
clamped, nothing rejected. -/
def outOfRangeParams : RunParams :=
  { angles_to_process := [0, 360]
    num_frames := 100
    render_style := "pixel_cel".data
    pixel_resolution := some 256
    output_format := "PNG".data
    output_file_extension := "png".data
    output_type := "zip".data }

/-- Witness for upload_validation_clamps at the out-of-range request. -/
theorem upload_validation_clamps_witness :
    upload_parse outOfRangeForm = Except.ok outOfRangeParams ∧
    (allowed_file outOfRangeForm.filename = true ∧
     (1 ≤ outOfRangeParams.num_frames ∧ outOfRangeParams.num_frames ≤ 100) ∧
     (∀ r : ℤ, outOfRangeParams.pixel_resolution = some r → 16 ≤ r ∧ r ≤ 256)) := by
  have hok : upload_parse outOfRangeForm = Except.ok outOfRangeParams := rfl
  exact ⟨hok, upload_validation_clamps outOfRangeForm outOfRangeParams hok⟩

/-- Claim C5: in the per-angle loop, a render-engine invocation failure
(non-zero exit code or timeout) at one angle is recorded in the diagnostic
list and processing continues to the following angles, whereas a missing
engine executable (FileNotFoundError) is recorded, halts all remaining
angles immediately, and makes the whole request fail. -/
theorem engine_failure_semantics (outcome : ℚ → EngineOutcome) (a b : ℚ)
    (post : List ℚ)
    (ha : outcome a = EngineOutcome.nonZeroExit ∨ outcome a = EngineOutcome.timeout)
    (hb : outcome b = EngineOutcome.execNotFound) :
    (processAngles outcome (a :: b :: post)).1 = [a, b] ∧
    (processAngles outcome (a :: b :: post)).2 =
      [(if outcome a = EngineOutcome.nonZeroExit then BlenderError.angleFailed a
        else BlenderError.angleTimeout a), BlenderError.blenderNotFound] ∧
    blenderNotFoundFatal (processAngles outcome (a :: b :: post)).2 = true := by
  rcases ha with ha | ha <;>
    simp [processAngles, ha, hb, blenderNotFoundFatal]

/-- Witness for engine_failure_semantics: angle 0 exits non-zero, angle 90
hits the missing executable, angle 180 is never attempted. -/
theorem engine_failure_semantics_witness :
    ((fun q : ℚ => if q = 0 then EngineOutcome.nonZeroExit
        else EngineOutcome.execNotFound) 0 = EngineOutcome.nonZeroExit ∨
     (fun q : ℚ => if q = 0 then EngineOutcome.nonZeroExit
        else EngineOutcome.execNotFound) 0 = EngineOutcome.timeout) ∧
    ((fun q : ℚ => if q = 0 then EngineOutcome.nonZeroExit
        else EngineOutcome.execNotFound) 90 = EngineOutcome.execNotFound) ∧
    ((processAngles (fun q : ℚ => if q = 0 then EngineOutcome.nonZeroExit
        else EngineOutcome.execNotFound) [0, 90, 180]).1 = [0, 90] ∧
     (processAngles (fun q : ℚ => if q = 0 then EngineOutcome.nonZeroExit
        else EngineOutcome.execNotFound) [0, 90, 180]).2 =
       [(if (fun q : ℚ => if q = 0 then EngineOutcome.nonZeroExit
           else EngineOutcome.execNotFound) 0 = EngineOutcome.nonZeroExit then
           BlenderError.angleFailed 0
         else BlenderError.angleTimeout 0), BlenderError.blenderNotFound] ∧
     blenderNotFoundFatal (processAngles
        (fun q : ℚ => if q = 0 then EngineOutcome.nonZeroExit
          else EngineOutcome.execNotFound) [0, 90, 180]).2 = true) :=
  ⟨Or.inl (by decide), by decide,
   engine_failure_semantics
     (fun q : ℚ => if q = 0 then EngineOutcome.nonZeroExit
       else EngineOutcome.execNotFound) 0 90 [180]
     (Or.inl (by decide)) (by decide)⟩

/-! ## PostProcessPipeline: create_sprite_sheet (app.py lines 116-202)
    and the sheet output paths of upload_file (app.py lines 598-632). -/

/-- The WebP dimension limit of app.py line 164. -/
def MAX_WEBP_DIMENSION : ℕ := 16383

/-- A sprite sheet as written to disk: the path given by the caller and the
encoding format actually passed to the image save call. -/
structure SheetSave where
  path : Str
  format : Str
deriving DecidableEq

/-- Embedding of the save step of create_sprite_sheet (app.py lines
141-193): the frames are the successfully opened images, given by their
pixel dimensions; the sheet is a horizontal strip of width
first-frame-width times frame count.  An empty frame list returns failure
(none); otherwise the sheet is saved at the unchanged output path, in WEBP
unless the requested WEBP sheet exceeds MAX_WEBP_DIMENSION in either
direction, in which case the save falls back to PNG; any non-WEBP request
is saved as PNG. -/
def create_sprite_sheet (frame_dims : List (ℕ × ℕ)) (output_sheet_path : Str)
    (output_sheet_format : Str) : Option SheetSave :=
  match frame_dims with
  | [] => none
  | (width, height) :: _ =>
    let total_width := width * frame_dims.length
    let fmt1 :=
      if output_sheet_format = "WEBP".data ∧
          (total_width > MAX_WEBP_DIMENSION ∨ height > MAX_WEBP_DIMENSION) then
        "PNG".data
      else output_sheet_format
    let fmt2 := if fmt1 ≠ "WEBP".data then "PNG".data else fmt1
    some { path := output_sheet_path, format := fmt2 }

/-- The sheet output path of upload_file (app.py lines 600 and 622):
os.path.join(final_output_dir, name + dot + output_file_extension). -/
def sheet_output_path (final_output_dir angle_output_name output_file_extension : Str) :
    Str :=
  final_output_dir ++ "/".data ++ angle_output_name ++ ".".data ++ output_file_extension

/-- Claim C6: whenever create_sprite_sheet assembles a non-empty WEBP sheet
whose strip width or height exceeds the WebP dimension limit 16383, it
still succeeds, saving the sheet as PNG at the same path - the dimension
limit alone never makes it fail. -/
theorem create_sprite_sheet_webp_fallback (width height : ℕ) (rest : List (ℕ × ℕ))
    (path : Str)
    (hover : width * ((width, height) :: rest).length > MAX_WEBP_DIMENSION ∨
      height > MAX_WEBP_DIMENSION) :
    create_sprite_sheet ((width, height) :: rest) path "WEBP".data =
      some { path := path, format := "PNG".data } := by
  rw [create_sprite_sheet]
  have h1 : "WEBP".data = "WEBP".data ∧
      (width * ((width, height) :: rest).length > MAX_WEBP_DIMENSION ∨
        height > MAX_WEBP_DIMENSION) := ⟨rfl, hover⟩
  rw [if_pos h1, if_pos (show ("PNG".data ≠ "WEBP".data) by decide)]

/-- Witness for create_sprite_sheet_webp_fallback: two 10000-pixel-wide
frames give a 20000-pixel strip, beyond the 16383 limit. -/
theorem create_sprite_sheet_webp_fallback_witness :
    ((10000 : ℕ) * (((10000, 500) :: [((10000 : ℕ), (500 : ℕ))]).length) >
      MAX_WEBP_DIMENSION ∨ (500 : ℕ) > MAX_WEBP_DIMENSION) ∧
    create_sprite_sheet ((10000, 500) :: [(10000, 500)]) "sheet.webp".data "WEBP".data =
      some { path := "sheet.webp".data, format := "PNG".data } :=
  ⟨Or.inl (by decide),
   create_sprite_sheet_webp_fallback 10000 500 [(10000, 500)] "sheet.webp".data
     (Or.inl (by decide))⟩

/-- Claim C10: when the sheet falls back from WEBP to PNG because of the
dimension limit, it is still written to the original output path, whose
extension came from the requested format - so the delivered file ends in
dot-webp while its content is PNG-encoded. -/
theorem sheet_webp_extension_png_content (final_output_dir angle_output_name : Str)
    (width height : ℕ) (rest : List (ℕ × ℕ)) (save : SheetSave)
    (hover : width * ((width, height) :: rest).length > MAX_WEBP_DIMENSION ∨
      height > MAX_WEBP_DIMENSION)
    (hsave : create_sprite_sheet ((width, height) :: rest)
        (sheet_output_path final_output_dir angle_output_name
          ("WEBP".data.map lowerChar))
        "WEBP".data = some save) :
    ".webp".data.isSuffixOf save.path = true ∧ save.format = "PNG".data := by
  rw [create_sprite_sheet_webp_fallback width height rest _ hover] at hsave
  rw [Option.some.injEq] at hsave
  subst hsave
  constructor
  · show (".webp".data.isSuffixOf
      (sheet_output_path final_output_dir angle_output_name
        ("WEBP".data.map lowerChar))) = true
    have hext : "WEBP".data.map lowerChar = "webp".data := by decide
    rw [hext, sheet_output_path]
    simp only [List.isSuffixOf_iff_suffix]
    rw [List.append_assoc]
    exact List.suffix_append _ _
  · rfl

/-- Witness for sheet_webp_extension_png_content at a concrete oversized
sheet. -/
theorem sheet_webp_extension_png_content_witness :
    ((10000 : ℕ) * (((10000, 500) :: [((10000 : ℕ), (500 : ℕ))]).length) >
      MAX_WEBP_DIMENSION ∨ (500 : ℕ) > MAX_WEBP_DIMENSION) ∧
    create_sprite_sheet ((10000, 500) :: [(10000, 500)])
      (sheet_output_path "output".data "abc_angle_0_0".data
        ("WEBP".data.map lowerChar)) "WEBP".data =
      some { path := sheet_output_path "output".data "abc_angle_0_0".data
                ("WEBP".data.map lowerChar),
             format := "PNG".data } ∧
    (".webp".data.isSuffixOf (SheetSave.mk (sheet_output_path "output".data
        "abc_angle_0_0".data ("WEBP".data.map lowerChar)) "PNG".data).path = true ∧
     (SheetSave.mk (sheet_output_path "output".data "abc_angle_0_0".data
        ("WEBP".data.map lowerChar)) "PNG".data).format = "PNG".data) := by
  have hover : (10000 : ℕ) * (((10000, 500) :: [((10000 : ℕ), (500 : ℕ))]).length) >
      MAX_WEBP_DIMENSION ∨ (500 : ℕ) > MAX_WEBP_DIMENSION := Or.inl (by decide)
  have hsave : create_sprite_sheet ((10000, 500) :: [(10000, 500)])
      (sheet_output_path "output".data "abc_angle_0_0".data
        ("WEBP".data.map lowerChar)) "WEBP".data =
      some { path := sheet_output_path "output".data "abc_angle_0_0".data
                ("WEBP".data.map lowerChar),
             format := "PNG".data } := by decide
  exact ⟨hover, hsave,
    sheet_webp_extension_png_content "output".data "abc_angle_0_0".data
      10000 500 [(10000, 500)] _ hover hsave⟩
